import Mathlib

/-!
Shallow embedding of the client-side table pipeline of the
bibtex-custom-parser repository, covering the code in
static/ghpages.js, static/filtering.js and static/scripts.js:
the filter pass, the count recomputation, the header-click sort,
the alternating shading and the quick-cycle mutation handlers.

The table body is modelled as a list of row groups; each group is one
main row (tr[data-paper-id]) together with the detail row that the
rendered template places immediately after it (absent groups model a
malformed document).  Cell texts are the textContent strings of the
cells; positional cells (row.cells[i]) are a list indexed by position,
and data-field cells are association lists from the data-field
attribute to the cell text.
-/

namespace BibView

/-- Lexicographic comparison of character lists by code point, the
shallow embedding of the JavaScript relational comparison of strings. -/
def charListLt : List Char → List Char → Bool
  | [], [] => false
  | [], _ :: _ => true
  | _ :: _, [] => false
  | a :: as, b :: bs => if a < b then true else if b < a then false else charListLt as bs

/-- JavaScript string comparison a < b used on paper ids. -/
def strLtJS (a b : String) : Bool := charListLt a.data b.data

/-- Whitespace trimming on character lists, the shallow embedding of
JavaScript s.trim(). -/
def jsTrimChars (cs : List Char) : List Char :=
  ((cs.dropWhile Char.isWhitespace).reverse.dropWhile Char.isWhitespace).reverse

/-- Shallow embedding of JavaScript s.trim(). -/
def jsTrim (s : String) : String := String.mk (jsTrimChars s.data)

/-- Shallow embedding of JavaScript s.toLowerCase(). -/
def jsToLower (s : String) : String := String.mk (s.data.map Char.toLower)

/-- Value of a list of decimal digit characters. -/
def digitsToNat (ds : List Char) : Nat := ds.foldl (fun n c => n * 10 + (c.toNat - 48)) 0

/-- Shallow embedding of JavaScript parseInt(s, 10): skip surrounding
whitespace, read an optional sign and then a maximal run of decimal
digits; the result is none exactly when the call returns NaN. -/
def jsParseInt (s : String) : Option Int :=
  match jsTrimChars s.data with
  | [] => none
  | c :: rest =>
    let body := if c == '-' || c == '+' then rest else c :: rest
    let ds := body.takeWhile (fun d => d.isDigit)
    if ds.isEmpty then none
    else if c == '-' then some (-(digitsToNat ds : Int)) else some ((digitsToNat ds : Int))

/-- Character-list test used by the substring search below. -/
def startsWithChars : List Char → List Char → Bool
  | [], _ => true
  | _ :: _, [] => false
  | p :: ps, c :: cs => p == c && startsWithChars ps cs

/-- Occurrence of a pattern anywhere in a character list. -/
def occursInChars (pat : List Char) : List Char → Bool
  | [] => pat.isEmpty
  | c :: cs => startsWithChars pat (c :: cs) || occursInChars pat cs

/-- Shallow embedding of JavaScript s.includes(pat). -/
def strIncludes (s pat : String) : Bool := occursInChars pat.data s.data

/-- A main table row tr[data-paper-id].  editableStatus maps the
data-field attribute of each .editable-status cell to its text;
dataFields does the same for every [data-field] cell; cells is the
positional row.cells collection; rowText is the row textContent. -/
structure MainRow where
  paperId : String
  editableStatus : List (String × String)
  dataFields : List (String × String)
  cells : List String
  rowText : String
  hidden : Bool
  shade : Nat
deriving DecidableEq

/-- The detail row paired with a main row.  searchText is its
textContent with the two trace blocks removed, as built by the search
criterion of applyFilters. -/
structure DetailRow where
  searchText : String
  hidden : Bool
  shade : Nat
deriving DecidableEq

/-- One paper group: a main row and, when the document is well formed,
the detail row immediately following it. -/
structure Group where
  main : MainRow
  detail : Option DetailRow
deriving DecidableEq

/-- querySelector on an association list of data-field cells: the first
cell carrying the attribute value, if any. -/
def lookupField (fields : List (String × String)) (f : String) : Option String :=
  (fields.find? (fun p => p.fst == f)).map (fun p => p.snd)

/-- The filter configuration read at the top of applyFilters
(static/ghpages.js lines 156-165): the raw search input together with
the already-coerced numeric control values; yearToValue none models
the Infinity default of an empty year-to input. -/
structure FilterConfig where
  searchInputValue : String
  hideOfftopicChecked : Bool
  minPageCountValue : Int
  yearFromValue : Int
  yearToValue : Option Int
deriving DecidableEq

namespace Ghpages

/-- Criterion 1 of applyFilters (hide off-topic), ghpages.js 186-191:
given the running showRow flag, hide the row when the checkbox is on
and the is_offtopic cell shows the check glyph. -/
def offtopicStep (cfg : FilterConfig) (g : Group) (showRow : Bool) : Bool :=
  if showRow && cfg.hideOfftopicChecked then
    match lookupField g.main.editableStatus "is_offtopic" with
    | some t => if jsTrim t == "✔️" then false else showRow
    | none => showRow
  else showRow

/-- Criterion 2 of applyFilters (minimum page count), ghpages.js
195-209: hide only when a parseable page count is below the minimum. -/
def minPageStep (cfg : FilterConfig) (g : Group) (showRow : Bool) : Bool :=
  if showRow && decide (0 < cfg.minPageCountValue) then
    match g.main.cells[4]? with
    | some cellTxt =>
      let pageCountText := jsTrim cellTxt
      if pageCountText != "" then
        match jsParseInt pageCountText with
        | some pageCount => if pageCount < cfg.minPageCountValue then false else showRow
        | none => showRow
      else showRow
    | none => showRow
  else showRow

/-- The year value read from the year cell (ghpages.js 215-216): the
ternary yearText ? parseInt(yearText, 10) : NaN, with none for NaN. -/
def yearOfCell (cellTxt : String) : Option Int :=
  let yearText := jsTrim cellTxt
  if yearText != "" then jsParseInt yearText else none

/-- Criterion 3 of applyFilters (year range), ghpages.js 212-223:
hide when the year cell exists and its text is missing, unparseable or
outside the range. -/
def yearStep (cfg : FilterConfig) (g : Group) (showRow : Bool) : Bool :=
  if showRow then
    match g.main.cells[2]? with
    | some cellTxt =>
      match yearOfCell cellTxt with
      | none => false
      | some year =>
        if year < cfg.yearFromValue then false
        else
          match cfg.yearToValue with
          | some yTo => if yTo < year then false else showRow
          | none => showRow
    | none => showRow
  else showRow

/-- Detail text searched by the search criterion: the lowercased text
of the detail row when one exists, the empty string otherwise. -/
def detailSearchText (g : Group) : String :=
  match g.detail with
  | some d => jsToLower d.searchText
  | none => ""

/-- Criterion 4 of applyFilters (search term), ghpages.js 226-239. -/
def searchStep (cfg : FilterConfig) (g : Group) (showRow : Bool) : Bool :=
  let searchTerm := jsTrim (jsToLower cfg.searchInputValue)
  if showRow && (searchTerm != "") then
    let rowText := jsToLower g.main.rowText
    let detailText := detailSearchText g
    if !(strIncludes rowText searchTerm) && !(strIncludes detailText searchTerm) then false
    else showRow
  else showRow

/-- The showRow decision that one iteration of the applyFilters row
loop computes for a row group (ghpages.js 168-239): the four criteria
applied in sequence to the running flag, starting from true. -/
def showRowDecision (cfg : FilterConfig) (g : Group) : Bool :=
  searchStep cfg g (yearStep cfg g (minPageStep cfg g (offtopicStep cfg g true)))

/-- The visibility write-back of the row loop (ghpages.js 241-246):
classList.toggle of filter-hidden on the main row, and identically on
the detail row when it exists. -/
def applyFiltersGroup (cfg : FilterConfig) (g : Group) : Group :=
  let showRow := showRowDecision cfg g
  { g with
    main := { g.main with hidden := !showRow }
    detail := g.detail.map (fun d => { d with hidden := !showRow }) }

/-- The full filter pass over the table body. -/
def applyFilters (cfg : FilterConfig) (gs : List Group) : List Group :=
  gs.map (applyFiltersGroup cfg)

/-- The hide-off-topic criterion in isolation: a row passes unless the
checkbox is checked and its is_offtopic cell shows the check glyph. -/
def passesOfftopic (cfg : FilterConfig) (g : Group) : Bool :=
  !(cfg.hideOfftopicChecked &&
    (match lookupField g.main.editableStatus "is_offtopic" with
     | some t => jsTrim t == "✔️"
     | none => false))

/-- The minimum-page-count criterion in isolation: a row fails only
when the control is positive and the page cell holds a parseable
number below it. -/
def passesMinPage (cfg : FilterConfig) (g : Group) : Bool :=
  !(decide (0 < cfg.minPageCountValue) &&
    (match g.main.cells[4]? with
     | some cellTxt =>
       let pageCountText := jsTrim cellTxt
       if pageCountText != "" then
         match jsParseInt pageCountText with
         | some pageCount => decide (pageCount < cfg.minPageCountValue)
         | none => false
       else false
     | none => false))

/-- The year-range criterion in isolation: with a year cell present, a
row passes exactly when the cell parses to a year inside the range;
without a year cell the criterion is skipped. -/
def passesYear (cfg : FilterConfig) (g : Group) : Bool :=
  match g.main.cells[2]? with
  | some cellTxt =>
    match yearOfCell cellTxt with
    | none => false
    | some year =>
      decide (cfg.yearFromValue ≤ year) &&
        (match cfg.yearToValue with
         | some yTo => decide (year ≤ yTo)
         | none => true)
  | none => true

/-- The search criterion in isolation: with a nonempty search term, a
row passes when the term occurs in the row text or in the detail text. -/
def passesSearch (cfg : FilterConfig) (g : Group) : Bool :=
  let searchTerm := jsTrim (jsToLower cfg.searchInputValue)
  if searchTerm == "" then true
  else strIncludes (jsToLower g.main.rowText) searchTerm ||
    strIncludes (detailSearchText g) searchTerm

end Ghpages

end BibView

namespace BibView

/-- The COUNT_FIELDS catalog of trackable fields, static/filtering.js
lines 104-113. -/
def COUNT_FIELDS : List String :=
  ["is_offtopic", "is_survey", "is_through_hole", "is_smt", "is_x_ray",
   "features_tracks", "features_holes", "features_solder_insufficient", "features_solder_excess",
   "features_solder_void", "features_solder_crack", "features_orientation", "features_wrong_component",
   "features_missing_component", "features_cosmetic", "features_other",
   "technique_classic_cv_based", "technique_ml_traditional",
   "technique_dl_cnn_classifier", "technique_dl_cnn_detector", "technique_dl_rcnn_detector",
   "technique_dl_transformer", "technique_dl_other", "technique_hybrid", "technique_available_dataset",
   "changed_by", "verified", "verified_by"]

/-- Whether a row contributes to the count of a field (filtering.js
128-141): its [data-field] cell exists and its trimmed text is the
person glyph for the two actor-attribution fields, the check glyph for
every other field. -/
def rowCounted (field : String) (row : MainRow) : Bool :=
  match lookupField row.dataFields field with
  | some text =>
    let cellText := jsTrim text
    if field == "changed_by" || field == "verified_by" then cellText == "👤"
    else cellText == "✔️"
  | none => false

/-- The counts dictionary increment counts[field]++, with the
dictionary modelled as a function from field names to numbers. -/
def bumpCount (counts : String → Nat) (field : String) : String → Nat :=
  fun g => if g == field then counts g + 1 else counts g

/-- One iteration of the row loop of updateCounts: bump every counted
field of the row. -/
def accumRowCounts (counts : String → Nat) (row : MainRow) : String → Nat :=
  COUNT_FIELDS.foldl (fun cs field => if rowCounted field row then bumpCount cs field else cs) counts

/-- The counts dictionary built by updateCounts from the visible rows,
starting from all-zero initialisation. -/
def computeCounts (visibleRows : List MainRow) : String → Nat :=
  visibleRows.foldl accumRowCounts (fun _ => 0)

/-- A guarded textContent write to the element of a given id: document
elements are keyed by id, getElementById returning none leaves the
document unchanged. -/
def writeCell (dom : String → Option String) (id text : String) : String → Option String :=
  fun k => if k == id then (dom k).map (fun _ => text) else dom k

/-- The document state read and written by updateCounts: the table
groups, the footer count cells keyed by element id, and the
visible-count cell. -/
@[ext]
structure DomState where
  groups : List Group
  countCellText : String → Option String
  visibleCountText : Option String

/-- updateCounts from static/filtering.js lines 114-162: recompute the
counts dictionary from the currently visible main rows, rewrite the
visible-count cell, and rewrite each existing count footer cell. -/
def updateCounts (s : DomState) : DomState :=
  let rows := s.groups.map Group.main
  let visibleRows := rows.filter (fun r => !r.hidden)
  let counts := computeCounts visibleRows
  let visiblePaperCount := visibleRows.length
  let totalPaperCount := rows.length
  let s1 := { s with visibleCountText := s.visibleCountText.map (fun _ =>
      "Filtered: " ++ toString visiblePaperCount ++ ", Loaded: " ++ toString totalPaperCount) }
  COUNT_FIELDS.foldl (fun st field =>
    { st with countCellText :=
        writeCell st.countCellText ("count-" ++ field) (toString (counts field)) }) s1

/-- Specification-side count: the number of visible main rows whose
cell for the field renders the affirmative glyph. -/
def countAffirmative (rows : List MainRow) (field : String) : Nat :=
  (rows.filter (fun r => !r.hidden)).countP (fun r => rowCounted field r)

/-- One entry of the pre-processed sort array of the header click
handler (filtering.js 373-393): the extracted cell value and the
data-paper-id of the main row. -/
structure SortItem (α : Type) where
  value : α
  paperId : String
deriving DecidableEq

/-- Requested sort direction of a header click. -/
inductive SortDirection
  | asc
  | desc
deriving DecidableEq

/-- The comparator body of the header click sort (filtering.js
396-404) before the direction is applied: compare the extracted
values, then break ties on the paper ids with the JavaScript string
comparison. -/
def sortComparison [LinearOrder α] (a b : SortItem α) : Int :=
  if b.value < a.value then 1
  else if a.value < b.value then -1
  else if strLtJS b.paperId a.paperId then 1
  else if strLtJS a.paperId b.paperId then -1
  else 0

/-- The full comparator passed to sortData.sort: the body above,
negated when the requested direction is DESC (filtering.js 404). -/
def directedComparison [LinearOrder α] (dir : SortDirection) (a b : SortItem α) : Int :=
  let comparison := sortComparison a b
  match dir with
  | SortDirection.desc => -comparison
  | SortDirection.asc => comparison

/-- The ordering induced by the comparator: a sorts no later than b. -/
def sortLe [LinearOrder α] (dir : SortDirection) (a b : SortItem α) : Prop :=
  directedComparison dir a b ≤ 0

instance sortLeDecidable [LinearOrder α] (dir : SortDirection) :
    DecidableRel (sortLe (α := α) dir) :=
  fun a b => inferInstanceAs (Decidable (directedComparison dir a b ≤ 0))

/-- Array.prototype.sort with the comparator above, modelled by the
stable insertion sort on the induced ordering. -/
def headerClickSort [LinearOrder α] (dir : SortDirection) (items : List (SortItem α)) :
    List (SortItem α) :=
  List.insertionSort (sortLe dir) items

/-- SYMBOL_SORT_WEIGHTS from filtering.js 18-22, as a partial lookup:
none models an undefined property access. -/
def SYMBOL_SORT_WEIGHTS : String → Option Int
  | "✔️" => some 2
  | "❌" => some 1
  | "❔" => some 0
  | _ => none

/-- Sort-value extraction for text columns (filtering.js 377-379):
the cell may be absent and then defaults to the empty string. -/
def extractTextValue (cell : Option String) : String :=
  match cell with
  | some t => jsTrim t
  | none => ""

/-- Sort-value extraction for status columns (filtering.js 386-389):
the weight of the trimmed glyph, defaulting to 0 for an unrecognized
glyph; the cell itself is dereferenced without a null check, so an
absent cell is a thrown TypeError, modelled as an error result. -/
def extractStatusValue (cell : Option String) : Except Unit Int :=
  match cell with
  | none => Except.error ()
  | some t => Except.ok ((SYMBOL_SORT_WEIGHTS (jsTrim t)).getD 0)

/-- The comparator ordering lifted to whole row groups via the
extracted value of the sorted column. -/
def groupSortLe [LinearOrder α] (dir : SortDirection) (extract : Group → α)
    (g1 g2 : Group) : Prop :=
  sortLe dir { value := extract g1, paperId := g1.main.paperId }
    { value := extract g2, paperId := g2.main.paperId }

instance groupSortLeDecidable [LinearOrder α] (dir : SortDirection) (extract : Group → α) :
    DecidableRel (groupSortLe dir extract) :=
  fun g1 g2 =>
    inferInstanceAs (Decidable (sortLe dir { value := extract g1, paperId := g1.main.paperId }
      { value := extract g2, paperId := g2.main.paperId }))

/-- The DOM effect of the header click sort (filtering.js 407-413):
every visible main row is moved, together with the detail row paired
with it, to the end of the table body in comparator order; rows hidden
by filters are left in place and therefore end up before the sorted
block, in their original relative order. -/
def headerClickReorder [LinearOrder α] (dir : SortDirection) (extract : Group → α)
    (gs : List Group) : List Group :=
  gs.filter (fun g => g.main.hidden) ++
    List.insertionSort (groupSortLe dir extract) (gs.filter (fun g => !g.main.hidden))

/-- The shade classes written by applyAlternatingShading: 1 and 2
stand for alt-shade-1 and alt-shade-2. -/
def shadeGroup (groupIndex : Nat) (g : Group) : Group :=
  let shadeClass : Nat := if groupIndex % 2 == 0 then 1 else 2
  { g with
    main := { g.main with shade := shadeClass }
    detail := g.detail.map (fun d => { d with shade := shadeClass }) }

/-- The forEach of applyAlternatingShading (scripts.js 137-176) with
the running visible-group index: hidden groups are skipped, each
visible group and its paired detail row receive the alternating shade
class of the visible position. -/
def applyAlternatingShadingFrom : Nat → List Group → List Group
  | _, [] => []
  | n, g :: gs =>
    if g.main.hidden then g :: applyAlternatingShadingFrom n gs
    else shadeGroup n g :: applyAlternatingShadingFrom (n + 1) gs

/-- applyAlternatingShading over the whole table body. -/
def applyAlternatingShading (gs : List Group) : List Group :=
  applyAlternatingShadingFrom 0 gs

/-- The invariant of a row group: when a paired detail row exists, it
carries the same filter-hidden flag as its main row. -/
def pairVisibilityOk (g : Group) : Prop :=
  ∀ d, g.detail = some d → d.hidden = g.main.hidden

/-- The visibility data of a group: the filter-hidden flag of the main
row and, when present, of the detail row. -/
def visibilitySignature (g : Group) : Bool × Option Bool :=
  (g.main.hidden, g.detail.map DetailRow.hidden)

/-- One entry of the STATUS_CYCLE / VERIFIED_BY_CYCLE tables: the next
glyph to display and the semantic value to send. -/
structure CycleInfo where
  next : String
  value : String
deriving DecidableEq

/-- STATUS_CYCLE from static/scripts.js lines 70-74. -/
def STATUS_CYCLE : String → Option CycleInfo
  | "❔" => some { next := "✔️", value := "true" }
  | "✔️" => some { next := "❌", value := "false" }
  | "❌" => some { next := "❔", value := "unknown" }
  | _ => none

/-- VERIFIED_BY_CYCLE from static/scripts.js lines 75-81. -/
def VERIFIED_BY_CYCLE : String → Option CycleInfo
  | "👤" => some { next := "❔", value := "unknown" }
  | "❔" => some { next := "👤", value := "user" }
  | "🖥️" => some { next := "❔", value := "unknown" }
  | _ => none

/-- The successor glyph of the status cycle. -/
def statusSucc (g : String) : Option String := (STATUS_CYCLE g).map CycleInfo.next

/-- The entry the unrecognized-glyph fallback of the editable-status
click handler reads, STATUS_CYCLE of the unknown glyph. -/
def defaultNextStatusInfo : CycleInfo := { next := "✔️", value := "true" }

/-- Observable outcome of one click on an editable cell: the text
written to the cell (none when the handler leaves the cell untouched),
the field value carried by the /update_paper request (none when no
request is issued; an inner none is a JSON null), and the pre-edit
text the failure path restores. -/
structure QuickEditOutcome where
  newCellText : Option String
  sentFieldValue : Option (Option String)
  preText : String
deriving DecidableEq

/-- The editable-status click handler (scripts.js 462-509): look up
the current glyph in STATUS_CYCLE; an unrecognized glyph falls back to
the entry of the unknown glyph; the successor glyph is written to the
cell immediately and the successor value is sent. -/
def editableStatusClick (currentText : String) : QuickEditOutcome :=
  match STATUS_CYCLE currentText with
  | none =>
    { newCellText := some defaultNextStatusInfo.next
      sentFieldValue := some (some defaultNextStatusInfo.value)
      preText := currentText }
  | some info =>
    { newCellText := some info.next
      sentFieldValue := some (some info.value)
      preText := currentText }

/-- The editable-verify click handler (scripts.js 512-561): an
unrecognized glyph logs an error and returns without any transition;
otherwise the cell is rewritten optimistically and the value is sent,
with the unknown value mapped to JSON null. -/
def editableVerifyClick (currentSymbol : String) : QuickEditOutcome :=
  match VERIFIED_BY_CYCLE currentSymbol with
  | none =>
    { newCellText := none, sentFieldValue := none, preText := currentSymbol }
  | some info =>
    { newCellText := some (if info.value == "user" then "👤" else "❔")
      sentFieldValue := some (if info.value == "unknown" then none else some info.value)
      preText := currentSymbol }

/-- The cell text displayed right after the optimistic update of a
status-cell click, before any network response arrives. -/
def displayedAfterClick (t : String) : String := (editableStatusClick t).newCellText.getD t

/-- Outcome of the /update_paper exchange as seen by sendAjaxRequest:
a network error, a non-ok HTTP response, or a parsed application
response with its status string. -/
inductive UpdateResponse
  | netError
  | httpError
  | appResult (status : String)
deriving DecidableEq

/-- Whether sendAjaxRequest takes one of its failure paths (scripts.js
578-611): a network error, a non-ok response, or an application status
other than success. -/
def responseFailed : UpdateResponse → Bool
  | UpdateResponse.netError => true
  | UpdateResponse.httpError => true
  | UpdateResponse.appResult status => !(status == "success")

/-- The cell text after sendAjaxRequest resolves: every failure path
restores the saved pre-edit text, the success path leaves the
optimistically shown text in place. -/
def quickEditCellAfter (preText shownText : String) (resp : UpdateResponse) : String :=
  match resp with
  | UpdateResponse.netError => preText
  | UpdateResponse.httpError => preText
  | UpdateResponse.appResult status => if status == "success" then shownText else preText

end BibView

namespace BibView

namespace Ghpages

/-- The off-topic step conjoins its isolated criterion onto the
running flag. -/
theorem offtopicStep_eq (cfg : FilterConfig) (g : Group) (s : Bool) :
    offtopicStep cfg g s = (s && passesOfftopic cfg g) := by
  cases s with
  | false =>
    cases hc : cfg.hideOfftopicChecked <;>
      cases hl : lookupField g.main.editableStatus "is_offtopic" <;>
        simp [offtopicStep, hc, hl]
  | true =>
    cases hc : cfg.hideOfftopicChecked with
    | false => simp [offtopicStep, passesOfftopic, hc]
    | true =>
      cases hl : lookupField g.main.editableStatus "is_offtopic" with
      | none => simp [offtopicStep, passesOfftopic, hc, hl]
      | some t =>
        cases ht : (jsTrim t == "✔️") <;>
          simp [offtopicStep, passesOfftopic, hc, hl, ht]

/-- The minimum-page-count step conjoins its isolated criterion onto
the running flag. -/
theorem minPageStep_eq (cfg : FilterConfig) (g : Group) (s : Bool) :
    minPageStep cfg g s = (s && passesMinPage cfg g) := by
  cases s with
  | false =>
    simp only [minPageStep, Bool.false_and, Bool.false_eq_true, if_false]
  | true =>
    cases hm : decide (0 < cfg.minPageCountValue) with
    | false => simp [minPageStep, passesMinPage, hm]
    | true =>
      cases hc : g.main.cells[4]? with
      | none => simp [minPageStep, passesMinPage, hm, hc]
      | some cellTxt =>
        cases he : (jsTrim cellTxt != "") with
        | false => simp [minPageStep, passesMinPage, hm, hc, he]
        | true =>
          cases hp : jsParseInt (jsTrim cellTxt) with
          | none => simp [minPageStep, passesMinPage, hm, hc, he, hp]
          | some pageCount =>
            by_cases hlt : pageCount < cfg.minPageCountValue <;>
              simp [minPageStep, passesMinPage, hm, hc, he, hp, hlt]

/-- The year-range step conjoins its isolated criterion onto the
running flag. -/
theorem yearStep_eq (cfg : FilterConfig) (g : Group) (s : Bool) :
    yearStep cfg g s = (s && passesYear cfg g) := by
  cases s with
  | false => simp [yearStep]
  | true =>
    cases hc : g.main.cells[2]? with
    | none => simp [yearStep, passesYear, hc]
    | some cellTxt =>
      cases hy : yearOfCell cellTxt with
      | none => simp [yearStep, passesYear, hc, hy]
      | some year =>
        by_cases h1 : year < cfg.yearFromValue
        · have hf : (decide (cfg.yearFromValue ≤ year)) = false := decide_eq_false (by omega)
          simp [yearStep, passesYear, hc, hy, h1, hf]
        · have hf : (decide (cfg.yearFromValue ≤ year)) = true := decide_eq_true (by omega)
          cases ht : cfg.yearToValue with
          | none => simp [yearStep, passesYear, hc, hy, h1, ht, hf]
          | some yTo =>
            by_cases h2 : yTo < year
            · have hg : (decide (year ≤ yTo)) = false := decide_eq_false (by omega)
              simp [yearStep, passesYear, hc, hy, h1, ht, h2, hf, hg]
            · have hg : (decide (year ≤ yTo)) = true := decide_eq_true (by omega)
              simp [yearStep, passesYear, hc, hy, h1, ht, h2, hf, hg]

/-- The search step conjoins its isolated criterion onto the running
flag. -/
theorem searchStep_eq (cfg : FilterConfig) (g : Group) (s : Bool) :
    searchStep cfg g s = (s && passesSearch cfg g) := by
  cases s with
  | false => simp [searchStep]
  | true =>
    cases he : (jsTrim (jsToLower cfg.searchInputValue) == "") with
    | true => simp [searchStep, passesSearch, bne, he]
    | false =>
      cases hr : strIncludes (jsToLower g.main.rowText) (jsTrim (jsToLower cfg.searchInputValue)) <;>
        cases hd : strIncludes (detailSearchText g) (jsTrim (jsToLower cfg.searchInputValue)) <;>
          simp [searchStep, passesSearch, bne, he, hr, hd]

/-- The showRow decision is the conjunction of the four isolated
criteria. -/
theorem showRowDecision_eq_conj (cfg : FilterConfig) (g : Group) :
    showRowDecision cfg g =
      (passesOfftopic cfg g && passesMinPage cfg g && passesYear cfg g && passesSearch cfg g) := by
  simp [showRowDecision, searchStep_eq, yearStep_eq, minPageStep_eq, offtopicStep_eq,
    Bool.and_assoc]

end Ghpages

end BibView

namespace BibView

/-- C1: after the client-side filter pass, a row is marked visible
(not filter-hidden) if and only if it passes every active criterion
(search text, hide-off-topic, minimum page count, year range); the
per-criterion decisions combine by logical AND with no other influence
on visibility. -/
theorem claim_C1_filter_conjunction (cfg : FilterConfig) (gs : List Group) :
    (Ghpages.applyFilters cfg gs).map (fun g => !g.main.hidden)
      = gs.map (fun g =>
          Ghpages.passesOfftopic cfg g && Ghpages.passesMinPage cfg g &&
            Ghpages.passesYear cfg g && Ghpages.passesSearch cfg g) := by
  simp [Ghpages.applyFilters, Ghpages.applyFiltersGroup, Ghpages.showRowDecision_eq_conj]

/-- C10 counterexample: with both year inputs empty (range defaulted
to 0 and Infinity) and every other criterion inactive, a row whose
year cell is missing entirely (an empty cells collection) is left
visible by the filter pass, not hidden. -/
theorem claim_C10_counterexample :
    (Ghpages.applyFiltersGroup
        { searchInputValue := "", hideOfftopicChecked := false, minPageCountValue := 0,
          yearFromValue := 0, yearToValue := none }
        { main := { paperId := "p1", editableStatus := [], dataFields := [], cells := [],
                    rowText := "", hidden := false, shade := 0 },
          detail := none }).main.hidden = false
      ∧ ({ paperId := "p1", editableStatus := [], dataFields := [], cells := [],
           rowText := "", hidden := false, shade := 0 } : MainRow).cells[2]? = none := by
  exact ⟨by decide, by decide⟩

/-- C10 (amended): the year-range criterion is applied
unconditionally, so for every filter configuration a row whose year
cell is present but empty or unparseable is hidden by applyFilters;
a row lacking the year cell entirely, however, skips the criterion
and is not hidden by it. -/
theorem claim_C10_amended (cfg : FilterConfig) (g : Group) :
    (∀ cellTxt, g.main.cells[2]? = some cellTxt → Ghpages.yearOfCell cellTxt = none →
      Ghpages.showRowDecision cfg g = false)
    ∧ (g.main.cells[2]? = none → Ghpages.passesYear cfg g = true) := by
  constructor
  · intro cellTxt hc hy
    rw [Ghpages.showRowDecision_eq_conj]
    have hfail : Ghpages.passesYear cfg g = false := by simp [Ghpages.passesYear, hc, hy]
    simp [hfail]
  · intro hc
    simp [Ghpages.passesYear, hc]

/-- Witness for the amended C10 at concrete rows: a row whose year
cell reads n/a is hidden, and a row with no year cell passes the year
criterion. -/
theorem claim_C10_amended_witness :
    Ghpages.showRowDecision
        { searchInputValue := "", hideOfftopicChecked := false, minPageCountValue := 0,
          yearFromValue := 0, yearToValue := none }
        { main := { paperId := "p2", editableStatus := [], dataFields := [],
                    cells := ["t", "x", "n/a", "j", "5"],
                    rowText := "", hidden := false, shade := 0 },
          detail := none } = false
      ∧ Ghpages.passesYear
          { searchInputValue := "", hideOfftopicChecked := false, minPageCountValue := 0,
            yearFromValue := 0, yearToValue := none }
          { main := { paperId := "p1", editableStatus := [], dataFields := [], cells := [],
                      rowText := "", hidden := false, shade := 0 },
            detail := none } = true := by
  refine ⟨(claim_C10_amended _ _).1 "n/a" (by decide) (by decide), (claim_C10_amended _ _).2 (by decide)⟩

end BibView

namespace BibView

/-- C6: for each of the three status states, applying the STATUS_CYCLE
successor transition three times returns the original state; the cycle
is unknown to true to false to unknown, and each of the three glyphs
has a successor (no terminal state). -/
theorem claim_C6_status_cycle :
    (statusSucc "❔" = some "✔️" ∧ statusSucc "✔️" = some "❌" ∧ statusSucc "❌" = some "❔")
    ∧ ((statusSucc "❔").bind (fun g => (statusSucc g).bind statusSucc) = some "❔"
       ∧ (statusSucc "✔️").bind (fun g => (statusSucc g).bind statusSucc) = some "✔️"
       ∧ (statusSucc "❌").bind (fun g => (statusSucc g).bind statusSucc) = some "❌") := by
  decide

/-- C7 counterexample: a click on a verified-by cell whose current
text is outside the recognized glyph set produces no transition at
all: the handler returns with the cell untouched and no request sent,
instead of normalizing the text to the unknown state. -/
theorem claim_C7_counterexample :
    editableVerifyClick "X" = { newCellText := none, sentFieldValue := none, preText := "X" } := by
  decide

/-- C7 (amended): a click on an editable status cell always produces a
defined successor, with unrecognized current text normalized to the
unknown state before cycling; a click on a verified-by cell produces a
defined successor exactly for the three recognized glyphs, and an
unrecognized glyph there is ignored, leaving the cell untouched and
sending nothing. -/
theorem claim_C7_amended (t : String) :
    (editableStatusClick t).newCellText.isSome = true
    ∧ (STATUS_CYCLE t = none →
        editableStatusClick t =
          { newCellText := some "✔️", sentFieldValue := some (some "true"), preText := t })
    ∧ (VERIFIED_BY_CYCLE t = none →
        editableVerifyClick t = { newCellText := none, sentFieldValue := none, preText := t })
    ∧ (∀ info, VERIFIED_BY_CYCLE t = some info →
        (editableVerifyClick t).newCellText.isSome = true) := by
  refine ⟨?_, ?_, ?_, ?_⟩
  · cases h : STATUS_CYCLE t <;> simp [editableStatusClick, h]
  · intro h; simp [editableStatusClick, h, defaultNextStatusInfo]
  · intro h; simp [editableVerifyClick, h]
  · intro info h; simp [editableVerifyClick, h]

/-- Witness for the amended C7: an unrecognized status glyph cycles to
the check glyph, and an unrecognized verified-by glyph is ignored. -/
theorem claim_C7_amended_witness :
    editableStatusClick "X" =
        { newCellText := some "✔️", sentFieldValue := some (some "true"), preText := "X" }
      ∧ editableVerifyClick "Y" = { newCellText := none, sentFieldValue := none, preText := "Y" }
      ∧ (editableVerifyClick "👤").newCellText.isSome = true := by
  refine ⟨(claim_C7_amended "X").2.1 (by decide), (claim_C7_amended "Y").2.2.1 (by decide),
    (claim_C7_amended "👤").2.2.2 { next := "❔", value := "unknown" } (by decide)⟩

/-- C8: a quick-cycle edit writes the successor glyph to the cell
immediately, before any response arrives; if the /update_paper
exchange then fails (network error, non-ok response, or an
application status other than success) the cell is restored to
exactly its pre-edit text, and on success the optimistically shown
text stays. -/
theorem claim_C8_optimistic_revert (t : String) (resp : UpdateResponse) :
    (∀ info, STATUS_CYCLE t = some info → displayedAfterClick t = info.next)
    ∧ (responseFailed resp = true →
        quickEditCellAfter t (displayedAfterClick t) resp = t)
    ∧ (responseFailed resp = false →
        quickEditCellAfter t (displayedAfterClick t) resp = displayedAfterClick t) := by
  refine ⟨?_, ?_, ?_⟩
  · intro info h; simp [displayedAfterClick, editableStatusClick, h]
  · intro h
    cases resp with
    | netError => rfl
    | httpError => rfl
    | appResult status =>
      simp only [responseFailed] at h
      cases hs : status == "success" with
      | false => simp [quickEditCellAfter, hs]
      | true => rw [hs] at h; simp at h
  · intro h
    cases resp with
    | netError => simp [responseFailed] at h
    | httpError => simp [responseFailed] at h
    | appResult status =>
      simp only [responseFailed] at h
      cases hs : status == "success" with
      | true => simp [quickEditCellAfter, hs]
      | false => rw [hs] at h; simp at h

/-- Witness for C8: clicking the unknown glyph shows the check glyph
at once; an error response restores the unknown glyph and a success
response keeps the check glyph. -/
theorem claim_C8_witness :
    displayedAfterClick "❔" = "✔️"
    ∧ quickEditCellAfter "❔" (displayedAfterClick "❔") (UpdateResponse.appResult "error") = "❔"
    ∧ quickEditCellAfter "❔" (displayedAfterClick "❔") (UpdateResponse.appResult "success") = "✔️" := by
  refine ⟨(claim_C8_optimistic_revert "❔" UpdateResponse.netError).1
      { next := "✔️", value := "true" } (by decide),
    (claim_C8_optimistic_revert "❔" (UpdateResponse.appResult "error")).2.1 (by decide), ?_⟩
  have h := (claim_C8_optimistic_revert "❔" (UpdateResponse.appResult "success")).2.2 (by decide)
  rw [h]
  decide

end BibView

namespace BibView

/-- The executable character-list comparison agrees with the
lexicographic order relation on lists. -/
theorem charListLt_iff : ∀ (a b : List Char), charListLt a b = true ↔ List.Lex (· < ·) a b
  | [], [] => iff_of_false (by simp [charListLt]) (List.Lex.not_nil_right _ _)
  | [], _ :: _ => iff_of_true (by simp [charListLt]) List.Lex.nil
  | _ :: _, [] => iff_of_false (by simp [charListLt]) (List.Lex.not_nil_right _ _)
  | a :: as, b :: bs => by
    by_cases h1 : a < b
    · exact iff_of_true (by simp [charListLt, h1]) (List.Lex.rel h1)
    · by_cases h2 : b < a
      · refine iff_of_false (by simp [charListLt, h1, h2]) ?_
        intro h
        cases h with
        | cons h3 => exact absurd h2 (lt_irrefl a)
        | rel h3 => exact h1 h3
      · have hab : a = b := le_antisymm (not_lt.mp h2) (not_lt.mp h1)
        subst hab
        have ih := charListLt_iff as bs
        constructor
        · intro h
          exact List.Lex.cons (ih.mp (by simpa [charListLt, lt_irrefl] using h))
        · intro h
          have h' : List.Lex (· < ·) as bs := List.Lex.cons_iff.mp h
          simpa [charListLt, lt_irrefl] using ih.mpr h'

/-- Equal character data means equal strings. -/
theorem string_data_inj {x y : String} (h : x.data = y.data) : x = y :=
  congrArg String.mk h

/-- The JavaScript string comparison agrees with the lexicographic
order on the character data. -/
theorem strLtJS_iff (x y : String) : strLtJS x y = true ↔ List.Lex (· < ·) x.data y.data :=
  charListLt_iff _ _

/-- The JavaScript string comparison is irreflexive. -/
theorem strLtJS_irrefl (x : String) : strLtJS x x = false := by
  cases h : strLtJS x x with
  | false => rfl
  | true => exact absurd ((strLtJS_iff _ _).mp h) (irrefl _)

/-- The JavaScript string comparison is asymmetric. -/
theorem strLtJS_asymm {x y : String} (h : strLtJS x y = true) : strLtJS y x = false := by
  cases h2 : strLtJS y x with
  | false => rfl
  | true => exact absurd ((strLtJS_iff _ _).mp h2) (asymm ((strLtJS_iff _ _).mp h))

/-- The JavaScript string comparison is transitive. -/
theorem strLtJS_trans {x y z : String} (h1 : strLtJS x y = true) (h2 : strLtJS y z = true) :
    strLtJS x z = true :=
  (strLtJS_iff _ _).mpr (IsTrans.trans _ _ _ ((strLtJS_iff _ _).mp h1) ((strLtJS_iff _ _).mp h2))

/-- The JavaScript string comparison is trichotomous. -/
theorem strLtJS_trichotomy (x y : String) :
    strLtJS x y = true ∨ x = y ∨ strLtJS y x = true := by
  haveI hchar : IsTrichotomous Char (· < ·) := ⟨fun a b => lt_trichotomy a b⟩
  haveI : IsTrichotomous (List Char) (List.Lex (· < ·)) := List.Lex.isTrichotomous _
  rcases trichotomous_of (List.Lex (· < ·)) x.data y.data with h | h | h
  · exact Or.inl ((strLtJS_iff _ _).mpr h)
  · exact Or.inr (Or.inl (string_data_inj h))
  · exact Or.inr (Or.inr ((strLtJS_iff _ _).mpr h))

/-- The comparator body vanishes on equal items. -/
theorem sortComparison_self {α : Type} [LinearOrder α] (a : SortItem α) :
    sortComparison a a = 0 := by
  simp [sortComparison, lt_irrefl, strLtJS_irrefl]

/-- Negating the comparator body swaps its arguments. -/
theorem sortComparison_neg {α : Type} [LinearOrder α] (a b : SortItem α) :
    sortComparison b a = -sortComparison a b := by
  unfold sortComparison
  rcases lt_trichotomy a.value b.value with h | h | h
  · simp [h, lt_asymm h]
  · rcases strLtJS_trichotomy a.paperId b.paperId with ht | ht | ht
    · simp [h, lt_irrefl, ht, strLtJS_asymm ht]
    · simp [h, ht, lt_irrefl, strLtJS_irrefl]
    · simp [h, lt_irrefl, ht, strLtJS_asymm ht]
  · simp [h, lt_asymm h]

/-- Zero comparator body characterizes equality of items. -/
theorem sortComparison_eq_zero_iff {α : Type} [LinearOrder α] {a b : SortItem α} :
    sortComparison a b = 0 ↔ a = b := by
  constructor
  · intro h
    unfold sortComparison at h
    rcases lt_trichotomy a.value b.value with hv | hv | hv
    · simp [hv, lt_asymm hv] at h
    · rcases strLtJS_trichotomy a.paperId b.paperId with ht | ht | ht
      · simp [hv, lt_irrefl, ht, strLtJS_asymm ht] at h
      · cases a
        cases b
        simp only at hv ht
        subst hv
        subst ht
        rfl
      · simp [hv, lt_irrefl, ht, strLtJS_asymm ht] at h
    · simp [hv, lt_asymm hv] at h
  · rintro rfl
    exact sortComparison_self a

/-- Characterization of a nonpositive comparator body: the first item
sorts no later than the second. -/
theorem sortComparison_le_iff {α : Type} [LinearOrder α] {a b : SortItem α} :
    sortComparison a b ≤ 0 ↔
      (a.value < b.value ∨
        (a.value = b.value ∧ (strLtJS a.paperId b.paperId = true ∨ a.paperId = b.paperId))) := by
  unfold sortComparison
  rcases lt_trichotomy a.value b.value with h | h | h
  · simp [h, lt_asymm h]
  · rcases strLtJS_trichotomy a.paperId b.paperId with ht | ht | ht
    · have hne : a.paperId ≠ b.paperId := by
        intro he
        rw [he] at ht
        rw [strLtJS_irrefl] at ht
        cases ht
      simp [h, lt_irrefl, ht, strLtJS_asymm ht, hne]
    · simp [h, ht, lt_irrefl, strLtJS_irrefl]
    · have hne : a.paperId ≠ b.paperId := by
        intro he
        rw [he] at ht
        rw [strLtJS_irrefl] at ht
        cases ht
      have hab : strLtJS a.paperId b.paperId = false := strLtJS_asymm ht
      simp [h, lt_irrefl, ht, hab, hne]
  · simp [h, lt_asymm h, ne_of_gt h, (ne_of_gt h).symm]

/-- Every pair of items is comparable under the comparator body. -/
theorem sortComparison_le_total {α : Type} [LinearOrder α] (a b : SortItem α) :
    sortComparison a b ≤ 0 ∨ sortComparison b a ≤ 0 := by
  rw [sortComparison_neg a b]
  omega

/-- The comparator body is transitive on its nonpositive side. -/
theorem sortComparison_le_trans {α : Type} [LinearOrder α] {a b c : SortItem α}
    (h1 : sortComparison a b ≤ 0) (h2 : sortComparison b c ≤ 0) : sortComparison a c ≤ 0 := by
  rw [sortComparison_le_iff] at h1 h2 ⊢
  rcases h1 with h1 | ⟨hv1, h1⟩
  · rcases h2 with h2 | ⟨hv2, h2⟩
    · exact Or.inl (lt_trans h1 h2)
    · exact Or.inl (hv2 ▸ h1)
  · rcases h2 with h2 | ⟨hv2, h2⟩
    · exact Or.inl (hv1 ▸ h2)
    · refine Or.inr ⟨hv1.trans hv2, ?_⟩
      rcases h1 with h1 | h1
      · rcases h2 with h2 | h2
        · exact Or.inl (strLtJS_trans h1 h2)
        · exact Or.inl (h2 ▸ h1)
      · rcases h2 with h2 | h2
        · exact Or.inl (h1 ▸ h2)
        · exact Or.inr (h1.trans h2)

/-- The ascending ordering in terms of the comparator body. -/
theorem sortLe_asc_iff {α : Type} [LinearOrder α] (a b : SortItem α) :
    sortLe SortDirection.asc a b ↔ sortComparison a b ≤ 0 := Iff.rfl

/-- The descending ordering is the ascending ordering flipped. -/
theorem sortLe_desc_iff {α : Type} [LinearOrder α] (a b : SortItem α) :
    sortLe SortDirection.desc a b ↔ sortComparison b a ≤ 0 := by
  unfold sortLe directedComparison
  rw [sortComparison_neg a b]

/-- Both directed orderings are total. -/
theorem sortLe_total {α : Type} [LinearOrder α] (dir : SortDirection) (a b : SortItem α) :
    sortLe dir a b ∨ sortLe dir b a := by
  cases dir with
  | asc => exact sortComparison_le_total a b
  | desc =>
    rw [sortLe_desc_iff, sortLe_desc_iff]
    rcases sortComparison_le_total b a with h | h
    · exact Or.inl h
    · exact Or.inr h

/-- Both directed orderings are transitive. -/
theorem sortLe_trans {α : Type} [LinearOrder α] (dir : SortDirection) {a b c : SortItem α}
    (h1 : sortLe dir a b) (h2 : sortLe dir b c) : sortLe dir a c := by
  cases dir with
  | asc => exact sortComparison_le_trans h1 h2
  | desc =>
    rw [sortLe_desc_iff] at h1 h2 ⊢
    exact sortComparison_le_trans h2 h1

/-- The ascending ordering is antisymmetric. -/
theorem sortLe_asc_antisymm {α : Type} [LinearOrder α] {a b : SortItem α}
    (h1 : sortLe SortDirection.asc a b) (h2 : sortLe SortDirection.asc b a) : a = b := by
  have h3 : sortComparison b a = -sortComparison a b := sortComparison_neg a b
  have h1b : sortComparison a b ≤ 0 := h1
  have h2b : sortComparison b a ≤ 0 := h2
  have h : sortComparison a b = 0 := by omega
  exact sortComparison_eq_zero_iff.mp h

end BibView

namespace BibView

/-- C3 counterexample: two rows with equal extracted sort values and
ids a and b (a lexicographically before b) are ordered b before a by
the DESC header sort, so the tie-break is not ascending by id for
both directions. -/
theorem claim_C3_counterexample :
    headerClickSort SortDirection.desc
        [{ value := (0 : Int), paperId := "a" }, { value := 0, paperId := "b" }]
      = [{ value := 0, paperId := "b" }, { value := 0, paperId := "a" }]
    ∧ strLtJS "a" "b" = true := by
  decide

/-- C3 (amended): for every pair of rows with equal extracted primary
sort values, the comparator breaks the tie on the paper id in the
requested direction: ascending by id under ASC and descending by id
under DESC, because the direction negation is applied to the whole
comparison including the tie-break. -/
theorem claim_C3_amended {α : Type} [LinearOrder α] (a b : SortItem α)
    (hv : a.value = b.value) (hid : strLtJS a.paperId b.paperId = true) :
    directedComparison SortDirection.asc a b < 0
    ∧ 0 < directedComparison SortDirection.desc a b := by
  have hcmp : sortComparison a b = -1 := by
    unfold sortComparison
    simp [hv, lt_irrefl, hid, strLtJS_asymm hid]
  have h1 : directedComparison SortDirection.asc a b = sortComparison a b := rfl
  have h2 : directedComparison SortDirection.desc a b = -sortComparison a b := rfl
  constructor <;> omega

/-- Witness for the amended C3 at a concrete equal-value pair. -/
theorem claim_C3_amended_witness :
    directedComparison SortDirection.asc
        { value := (0 : Int), paperId := "a" } { value := 0, paperId := "b" } < 0
    ∧ 0 < directedComparison SortDirection.desc
        { value := (0 : Int), paperId := "a" } { value := 0, paperId := "b" } :=
  claim_C3_amended _ _ (by decide) (by decide)

/-- C4 counterexample: a concrete three-row visible order that two
successive clicks on the same header (first DESC, then toggled to
ASC) do not restore: the result is the ascending order, not the
original order. -/
theorem claim_C4_counterexample :
    headerClickSort SortDirection.asc (headerClickSort SortDirection.desc
        [{ value := (1 : Int), paperId := "a" }, { value := 0, paperId := "b" },
         { value := 2, paperId := "c" }])
      ≠ [{ value := (1 : Int), paperId := "a" }, { value := 0, paperId := "b" },
         { value := 2, paperId := "c" }] := by
  decide

/-- C4 (amended): clicking the same header twice (first DESC, then
ASC) leaves the visible rows in the ascending comparator order, the
same order a single ascending click would produce; the pre-click
order is therefore restored exactly when it was already sorted
ascending, not in general. -/
theorem claim_C4_amended {α : Type} [LinearOrder α] (items : List (SortItem α)) :
    headerClickSort SortDirection.asc (headerClickSort SortDirection.desc items)
        = headerClickSort SortDirection.asc items
    ∧ (List.Sorted (sortLe SortDirection.asc) items →
        headerClickSort SortDirection.asc (headerClickSort SortDirection.desc items) = items) := by
  haveI : IsTotal (SortItem α) (sortLe SortDirection.asc) := ⟨sortLe_total _⟩
  haveI : IsTrans (SortItem α) (sortLe SortDirection.asc) :=
    ⟨fun _ _ _ h1 h2 => sortLe_trans _ h1 h2⟩
  haveI : IsAntisymm (SortItem α) (sortLe SortDirection.asc) :=
    ⟨fun _ _ h1 h2 => sortLe_asc_antisymm h1 h2⟩
  have hmain : headerClickSort SortDirection.asc (headerClickSort SortDirection.desc items)
      = headerClickSort SortDirection.asc items := by
    unfold headerClickSort
    refine @List.eq_of_perm_of_sorted _ (sortLe SortDirection.asc) _ _ _ ?_ ?_ ?_
    · exact ((List.perm_insertionSort _ _).trans (List.perm_insertionSort _ _)).trans
        (List.perm_insertionSort _ _).symm
    · exact List.sorted_insertionSort _ _
    · exact List.sorted_insertionSort _ _
  refine ⟨hmain, fun hs => ?_⟩
  rw [hmain]
  exact List.Sorted.insertionSort_eq hs

/-- Witness for the amended C4 at a concrete ascending-sorted pair. -/
theorem claim_C4_amended_witness :
    headerClickSort SortDirection.asc (headerClickSort SortDirection.desc
        [{ value := (0 : Int), paperId := "a" }, { value := 1, paperId := "b" }])
      = [{ value := (0 : Int), paperId := "a" }, { value := 1, paperId := "b" }] :=
  (claim_C4_amended _).2 (by decide)

end BibView

namespace BibView

/-- A common left part cancels in string concatenation. -/
theorem string_append_cancel {p a b : String} (h : p ++ a = p ++ b) : a = b := by
  cases p with | mk pd =>
  cases a with | mk ad =>
  cases b with | mk bd =>
  have hd : pd ++ ad = pd ++ bd := congrArg String.data h
  exact congrArg String.mk (List.append_cancel_left hd)

/-- The trackable field catalog has no duplicate field names. -/
theorem COUNT_FIELDS_nodup : COUNT_FIELDS.Nodup := by decide

/-- Evaluating the inner field loop of updateCounts at one field: the
count of that field grows by one exactly when the row is counted for
it, provided the traversed field list has no duplicates. -/
theorem accumFields_eval (L : List String) (hL : L.Nodup) (c : String → Nat) (row : MainRow)
    (f : String) :
    (L.foldl (fun cs field => if rowCounted field row then bumpCount cs field else cs) c) f
      = c f + (if f ∈ L ∧ rowCounted f row = true then 1 else 0) := by
  induction L generalizing c with
  | nil => simp
  | cons g0 L ih =>
    have hnd : L.Nodup := (List.nodup_cons.mp hL).2
    have hni : g0 ∉ L := (List.nodup_cons.mp hL).1
    simp only [List.foldl_cons]
    rw [ih hnd]
    by_cases hfg : f = g0
    · subst hfg
      by_cases hr : rowCounted f row = true
      · simp [hr, bumpCount, hni]
      · simp [hr, hni]
    · by_cases hr : rowCounted g0 row = true
      · have hb : (f == g0) = false := by
          cases hb2 : f == g0 with
          | false => rfl
          | true => exact absurd (eq_of_beq hb2) hfg
        simp [hr, bumpCount, hb, hfg, List.mem_cons]
      · simp [hr, hfg, List.mem_cons]

/-- The counts dictionary of updateCounts holds, for every catalog
field, exactly the number of traversed rows counted for that field. -/
theorem computeCounts_eval (rows : List MainRow) (f : String) (hf : f ∈ COUNT_FIELDS) :
    computeCounts rows f = rows.countP (fun r => rowCounted f r) := by
  suffices h : ∀ c : String → Nat,
      (rows.foldl accumRowCounts c) f = c f + rows.countP (fun r => rowCounted f r) by
    simpa [computeCounts] using h (fun _ => 0)
  induction rows with
  | nil => intro c; simp
  | cons r t ih =>
    intro c
    simp only [List.foldl_cons, List.countP_cons]
    rw [ih (accumRowCounts c r)]
    have hstep : accumRowCounts c r f = c f + (if rowCounted f r = true then 1 else 0) := by
      unfold accumRowCounts
      rw [accumFields_eval COUNT_FIELDS COUNT_FIELDS_nodup]
      simp [hf]
    rw [hstep]
    by_cases hr : rowCounted f r = true <;> simp [hr] <;> omega

/-- The footer-writing loop of updateCounts only rewrites the count
cell dictionary, leaving the groups and the visible-count cell of the
accumulated state alone. -/
theorem updateCounts_foldl_state (L : List String) (t : String → String) (s : DomState) :
    (L.foldl (fun st field =>
        { st with countCellText := writeCell st.countCellText ("count-" ++ field) (t field) }) s)
      = { s with countCellText :=
            L.foldl (fun d field => writeCell d ("count-" ++ field) (t field)) s.countCellText } := by
  induction L generalizing s with
  | nil => rfl
  | cons f L ih =>
    simp only [List.foldl_cons]
    exact ih _

/-- Evaluating the footer-writing loop at one element id: the first
catalog field whose count cell id matches receives its text, every
other id is untouched, and a missing element stays missing. -/
theorem writeCells_eval (L : List String) (t : String → String) (d : String → Option String)
    (k : String) :
    (L.foldl (fun d2 field => writeCell d2 ("count-" ++ field) (t field)) d) k
      = (match L.find? (fun field => k == "count-" ++ field) with
         | some field => (d k).map (fun _ => t field)
         | none => d k) := by
  induction L generalizing d with
  | nil => simp
  | cons f L ih =>
    simp only [List.foldl_cons, List.find?]
    cases hk : (k == "count-" ++ f) with
    | true =>
      rw [ih]
      have hkk : k = "count-" ++ f := eq_of_beq hk
      cases hf2 : L.find? (fun field => k == "count-" ++ field) with
      | none => simp [writeCell, hk]
      | some field2 =>
        have hp2 := List.find?_some hf2
        have h2 : k = "count-" ++ field2 := eq_of_beq hp2
        have hff : f = field2 := string_append_cancel (hkk.symm.trans h2)
        subst hff
        simp [writeCell, hk, Option.map_map]
        cases d k <;> rfl
    | false =>
      rw [ih]
      have hw : (writeCell d ("count-" ++ f) (t f)) k = d k := by simp [writeCell, hk]
      simp [hw]

/-- Looking up a catalog member by its count cell id finds exactly
that member. -/
theorem find_count_field {field : String} (hf : field ∈ COUNT_FIELDS) :
    COUNT_FIELDS.find? (fun f2 => ("count-" ++ field) == "count-" ++ f2) = some field := by
  have hgen : ∀ L : List String, field ∈ L →
      L.find? (fun f2 => ("count-" ++ field) == "count-" ++ f2) = some field := by
    intro L hL
    induction L with
    | nil => cases hL
    | cons g t ih =>
      cases hb : (("count-" ++ field) == "count-" ++ g) with
      | true =>
        have hfg : field = g := string_append_cancel (eq_of_beq hb)
        subst hfg
        simp [List.find?, hb]
      | false =>
        have hne : field ≠ g := by
          intro he
          subst he
          simp at hb
        have hmem : field ∈ t := by
          rcases List.mem_cons.mp hL with h | h
          · exact absurd h hne
          · exact h
        simp [List.find?, hb, ih hmem]
  exact hgen COUNT_FIELDS hf

/-- Full characterization of one updateCounts pass as a pure function
of the previous document state. -/
theorem updateCounts_eq (s : DomState) :
    updateCounts s =
      { groups := s.groups
        countCellText := fun k =>
          match COUNT_FIELDS.find? (fun field => k == "count-" ++ field) with
          | some field => (s.countCellText k).map (fun _ =>
              toString (computeCounts ((s.groups.map Group.main).filter (fun r => !r.hidden)) field))
          | none => s.countCellText k
        visibleCountText := s.visibleCountText.map (fun _ =>
          "Filtered: " ++ toString (((s.groups.map Group.main).filter (fun r => !r.hidden)).length)
            ++ ", Loaded: " ++ toString ((s.groups.map Group.main).length)) } := by
  simp only [updateCounts]
  rw [updateCounts_foldl_state]
  refine DomState.ext rfl ?_ rfl
  funext k
  exact writeCells_eval COUNT_FIELDS
    (fun field =>
      toString (computeCounts ((s.groups.map Group.main).filter (fun r => !r.hidden)) field))
    s.countCellText k

end BibView

namespace BibView

/-- updateCounts reads the table but never modifies the row groups. -/
theorem updateCounts_groups (s : DomState) : (updateCounts s).groups = s.groups := by
  rw [updateCounts_eq]

/-- Running updateCounts twice with no intervening change produces
the same document state as running it once. -/
theorem updateCounts_idem (s : DomState) : updateCounts (updateCounts s) = updateCounts s := by
  rw [updateCounts_eq (updateCounts s), updateCounts_eq s]
  refine DomState.ext rfl ?_ ?_
  · funext k
    cases h : COUNT_FIELDS.find? (fun field => k == "count-" ++ field) with
    | none => simp [h]
    | some field =>
      simp only [h, Option.map_map]
      congr 1
  · simp only [Option.map_map]
    congr 1

end BibView

namespace BibView

/-- C2: one call to updateCounts writes into each trackable field's
count cell exactly the number of currently visible main rows whose
cell for that field renders the affirmative glyph (the person glyph
for the actor-attribution fields, the check glyph for all others),
and calling updateCounts twice with no intervening change produces
the same document state as calling it once. -/
theorem claim_C2_counts (s : DomState) (field : String) (hf : field ∈ COUNT_FIELDS) :
    (updateCounts s).countCellText ("count-" ++ field)
        = (s.countCellText ("count-" ++ field)).map
            (fun _ => toString (countAffirmative (s.groups.map Group.main) field))
    ∧ updateCounts (updateCounts s) = updateCounts s := by
  constructor
  · have hc := congrFun (congrArg DomState.countCellText (updateCounts_eq s)) ("count-" ++ field)
    rw [hc]
    simp only [find_count_field hf]
    rw [computeCounts_eval _ _ hf]
    rfl
  · exact updateCounts_idem s

/-- Witness for C2 at a one-row table: the count cell of the verified
field is rewritten to 1, and a second pass changes nothing. -/
theorem claim_C2_counts_witness :
    (updateCounts
        { groups := [{ main := { paperId := "p1", editableStatus := [],
                                 dataFields := [("verified", "✔️")], cells := [],
                                 rowText := "", hidden := false, shade := 0 },
                       detail := none }]
          countCellText := fun k => if k == "count-verified" then some "0" else none
          visibleCountText := some "x" }).countCellText ("count-" ++ "verified") = some "1"
    ∧ updateCounts (updateCounts
        { groups := [{ main := { paperId := "p1", editableStatus := [],
                                 dataFields := [("verified", "✔️")], cells := [],
                                 rowText := "", hidden := false, shade := 0 },
                       detail := none }]
          countCellText := fun k => if k == "count-verified" then some "0" else none
          visibleCountText := some "x" })
      = updateCounts
        { groups := [{ main := { paperId := "p1", editableStatus := [],
                                 dataFields := [("verified", "✔️")], cells := [],
                                 rowText := "", hidden := false, shade := 0 },
                       detail := none }]
          countCellText := fun k => if k == "count-verified" then some "0" else none
          visibleCountText := some "x" } := by
  have h := claim_C2_counts
    { groups := [{ main := { paperId := "p1", editableStatus := [],
                             dataFields := [("verified", "✔️")], cells := [],
                             rowText := "", hidden := false, shade := 0 },
                   detail := none }]
      countCellText := fun k => if k == "count-verified" then some "0" else none
      visibleCountText := some "x" } "verified" (by decide)
  refine ⟨?_, h.2⟩
  rw [h.1]
  rfl

end BibView

namespace BibView

/-- The filter pass writes identical visibility markers to a main row
and to its paired detail row. -/
theorem applyFilters_pairVis (cfg : FilterConfig) (gs : List Group) :
    ∀ g ∈ Ghpages.applyFilters cfg gs, pairVisibilityOk g := by
  intro g hg
  rcases List.mem_map.mp hg with ⟨g0, hg0, rfl⟩
  intro d hd
  cases hdet : g0.detail with
  | none => simp [Ghpages.applyFiltersGroup, hdet] at hd
  | some d0 =>
    simp [Ghpages.applyFiltersGroup, hdet] at hd
    simp [Ghpages.applyFiltersGroup, hdet, ← hd]

/-- The header-click reorder is a permutation of the row groups: each
main row moves together with its paired detail row, and no group is
created or lost. -/
theorem headerClickReorder_perm {α : Type} [LinearOrder α] (dir : SortDirection)
    (extract : Group → α) (gs : List Group) :
    List.Perm (headerClickReorder dir extract gs) gs := by
  unfold headerClickReorder
  have h1 : List.Perm
      (List.insertionSort (groupSortLe dir extract) (gs.filter (fun g => !g.main.hidden)))
      (gs.filter (fun g => !g.main.hidden)) := List.perm_insertionSort _ _
  have h2 := List.Perm.append_left (gs.filter (fun g => g.main.hidden)) h1
  exact h2.trans (List.filter_append_perm _ gs)

/-- The alternating shading pass rewrites only shade classes: the
visibility data of every group is unchanged. -/
theorem applyAlternatingShadingFrom_sig (gs : List Group) : ∀ n : Nat,
    (applyAlternatingShadingFrom n gs).map visibilitySignature = gs.map visibilitySignature := by
  induction gs with
  | nil => intro n; rfl
  | cons g t ih =>
    intro n
    cases hb : g.main.hidden with
    | true =>
      simp only [applyAlternatingShadingFrom, hb, if_true, List.map_cons]
      rw [ih n]
    | false =>
      simp only [applyAlternatingShadingFrom, hb, Bool.false_eq_true, if_false, List.map_cons]
      rw [ih (n + 1)]
      have hsig : visibilitySignature (shadeGroup n g) = visibilitySignature g := by
        simp [visibilitySignature, shadeGroup, Option.map_map]
        rfl
      rw [hsig]

/-- The alternating shading pass preserves the pair-visibility
invariant. -/
theorem applyAlternatingShadingFrom_pairVis :
    ∀ (gs : List Group) (n : Nat), (∀ g ∈ gs, pairVisibilityOk g) →
      ∀ g ∈ applyAlternatingShadingFrom n gs, pairVisibilityOk g := by
  intro gs
  induction gs with
  | nil => intro n hh g hg; cases hg
  | cons g0 t ih =>
    intro n hh g hg
    cases hb : g0.main.hidden with
    | true =>
      rw [applyAlternatingShadingFrom] at hg
      rw [hb] at hg
      simp only [if_true] at hg
      rcases List.mem_cons.mp hg with rfl | hmem
      · exact hh g (List.mem_cons_self _ _)
      · exact ih n (fun g2 hg2 => hh g2 (List.mem_cons_of_mem _ hg2)) g hmem
    | false =>
      rw [applyAlternatingShadingFrom] at hg
      rw [hb] at hg
      simp only [Bool.false_eq_true, if_false] at hg
      rcases List.mem_cons.mp hg with rfl | hmem
      · intro d hd
        have h0 := hh g0 (List.mem_cons_self _ _)
        cases hdet : g0.detail with
        | none => simp [shadeGroup, hdet] at hd
        | some d0 =>
          simp [shadeGroup, hdet] at hd
          have := h0 d0 hdet
          simp [shadeGroup, ← hd, this]
      · exact ih (n + 1) (fun g2 hg2 => hh g2 (List.mem_cons_of_mem _ hg2)) g hmem

/-- C5: every pipeline operation keeps a main row and its paired
detail row carrying the same visibility flag.  The filter pass writes
the flag identically to both members of a pair; the header-click sort
permutes whole groups (pairs move together) and so preserves the
invariant; updateCounts does not touch the rows at all; and the
shading pass changes only shade classes, preserving all visibility
flags and with them the invariant. -/
theorem claim_C5_pair_visibility {α : Type} [LinearOrder α] (cfg : FilterConfig)
    (dir : SortDirection) (extract : Group → α) (gs gs2 gs3 : List Group) (s : DomState) :
    (∀ g ∈ Ghpages.applyFilters cfg gs, pairVisibilityOk g)
    ∧ List.Perm (headerClickReorder dir extract gs2) gs2
    ∧ ((∀ g ∈ gs2, pairVisibilityOk g) →
        ∀ g ∈ headerClickReorder dir extract gs2, pairVisibilityOk g)
    ∧ (updateCounts s).groups = s.groups
    ∧ (applyAlternatingShading gs3).map visibilitySignature = gs3.map visibilitySignature
    ∧ ((∀ g ∈ gs3, pairVisibilityOk g) →
        ∀ g ∈ applyAlternatingShading gs3, pairVisibilityOk g) := by
  refine ⟨applyFilters_pairVis cfg gs, headerClickReorder_perm dir extract gs2, ?_,
    updateCounts_groups s, applyAlternatingShadingFrom_sig gs3 0, ?_⟩
  · intro hh g hg
    exact hh g ((headerClickReorder_perm dir extract gs2).mem_iff.mp hg)
  · intro hh g hg
    exact applyAlternatingShadingFrom_pairVis gs3 0 hh g hg

/-- Witness for C5 at a one-group table: the reorder fixes the
singleton list, updateCounts leaves the groups alone, and the
invariant survives reordering and shading. -/
theorem claim_C5_witness :
    List.Perm
      (headerClickReorder SortDirection.asc (fun _ => (0 : Int))
        [{ main := { paperId := "p1", editableStatus := [], dataFields := [], cells := [],
                     rowText := "", hidden := false, shade := 0 }, detail := none }])
      [{ main := { paperId := "p1", editableStatus := [], dataFields := [], cells := [],
                   rowText := "", hidden := false, shade := 0 }, detail := none }]
    ∧ (updateCounts
        { groups := [], countCellText := fun _ => none, visibleCountText := none }).groups
      = ([] : List Group)
    ∧ pairVisibilityOk
        { main := { paperId := "p1", editableStatus := [], dataFields := [], cells := [],
                    rowText := "", hidden := false, shade := 0 }, detail := none } := by
  have h := claim_C5_pair_visibility (α := Int)
    { searchInputValue := "", hideOfftopicChecked := false, minPageCountValue := 0,
      yearFromValue := 0, yearToValue := none }
    SortDirection.asc (fun _ => (0 : Int)) []
    [{ main := { paperId := "p1", editableStatus := [], dataFields := [], cells := [],
                 rowText := "", hidden := false, shade := 0 }, detail := none }]
    [] { groups := [], countCellText := fun _ => none, visibleCountText := none }
  refine ⟨h.2.1, h.2.2.2.1, ?_⟩
  refine h.2.2.1 ?_ _ ?_
  · intro g hg d hd
    rw [List.mem_singleton.mp hg] at hd
    cases hd
  · decide

end BibView

namespace BibView

/-- C9 counterexample: sorting by a status column does not survive a
missing cell.  The value extraction for status columns dereferences
the querySelector result without a null check, so a row lacking the
expected editable-status cell makes the sort throw instead of using a
safe zero default. -/
theorem claim_C9_counterexample : extractStatusValue none = Except.error () := rfl

/-- C9 (amended): filtering and counting treat an absent cell as a
safe default (the criterion passes, the row is not counted), and
text-column sort extraction defaults an absent cell to the empty
string while unrecognized status glyphs weigh zero; but status-column
sort value extraction dereferences the cell unguardedly and fails with
a thrown error when the cell is absent. -/
theorem claim_C9_amended (cfg : FilterConfig) (g : Group) (row : MainRow) (field t : String) :
    (lookupField g.main.editableStatus "is_offtopic" = none →
      Ghpages.passesOfftopic cfg g = true)
    ∧ (g.main.cells[4]? = none → Ghpages.passesMinPage cfg g = true)
    ∧ (g.main.cells[2]? = none → Ghpages.passesYear cfg g = true)
    ∧ (lookupField row.dataFields field = none → rowCounted field row = false)
    ∧ extractTextValue none = ""
    ∧ (SYMBOL_SORT_WEIGHTS (jsTrim t) = none → extractStatusValue (some t) = Except.ok 0)
    ∧ extractStatusValue none = Except.error () := by
  refine ⟨?_, ?_, ?_, ?_, rfl, ?_, rfl⟩
  · intro h
    simp [Ghpages.passesOfftopic, h]
  · intro h
    simp [Ghpages.passesMinPage, h]
  · intro h
    simp [Ghpages.passesYear, h]
  · intro h
    simp [rowCounted, h]
  · intro h
    simp [extractStatusValue, h]

/-- Witness for the amended C9: a bare row passes each criterion with
its cells missing, is never counted, and an unrecognized glyph weighs
zero, while the missing status cell is the thrown case. -/
theorem claim_C9_amended_witness :
    Ghpages.passesOfftopic
        { searchInputValue := "", hideOfftopicChecked := true, minPageCountValue := 3,
          yearFromValue := 0, yearToValue := none }
        { main := { paperId := "p1", editableStatus := [], dataFields := [], cells := [],
                    rowText := "", hidden := false, shade := 0 }, detail := none } = true
    ∧ Ghpages.passesMinPage
        { searchInputValue := "", hideOfftopicChecked := true, minPageCountValue := 3,
          yearFromValue := 0, yearToValue := none }
        { main := { paperId := "p1", editableStatus := [], dataFields := [], cells := [],
                    rowText := "", hidden := false, shade := 0 }, detail := none } = true
    ∧ rowCounted "verified"
        { paperId := "p1", editableStatus := [], dataFields := [], cells := [],
          rowText := "", hidden := false, shade := 0 } = false
    ∧ extractStatusValue (some "x") = Except.ok 0 := by
  have h := claim_C9_amended
    { searchInputValue := "", hideOfftopicChecked := true, minPageCountValue := 3,
      yearFromValue := 0, yearToValue := none }
    { main := { paperId := "p1", editableStatus := [], dataFields := [], cells := [],
                rowText := "", hidden := false, shade := 0 }, detail := none }
    { paperId := "p1", editableStatus := [], dataFields := [], cells := [],
      rowText := "", hidden := false, shade := 0 } "verified" "x"
  exact ⟨h.1 (by decide), h.2.1 (by decide), h.2.2.2.1 (by decide), h.2.2.2.2.2.1 (by decide)⟩

end BibView
